import Mathlib

/-!
Shallow embedding of the SAP repair-movement anomaly checker
(`orchestration_logic.py`) together with proofs about its two core
operations:

* `find_anomalous_repairs` (the anomaly detector): groups the input table by
  `Repair Number`, tallies the `Movement Code`s of each group with a
  `Counter`, skips groups whose tally is exactly one each of 251, 161, 252,
  and emits a structured anomaly record for every other group;
* `write_results_to_file` (the report formatter): sorts the anomaly list in
  place by repair number, and renders either a fixed sentinel line (empty
  case) or a header / per-anomaly lines / footer report, returning a status
  message.

Python strings compare lexicographically by code point, which is exactly the
order on `List Char`; pandas `groupby` iterates groups in ascending key
order; `Counter` built from a list stores exactly the elements that occur,
each with a positive count, so the dictionary is faithfully represented by
its count function with absence encoded as count `0`; `list.sort` and
`sorted` are stable sorts, and every stable sort produces the same output,
so `List.insertionSort` models them exactly.
-/

namespace SAP

/-- One row of the input table: a single inventory movement recorded against
a repair order.  Corresponds to one DataFrame row restricted to the two
required columns `Repair Number` (string) and `Movement Code` (integer). -/
structure Row where
  repairNumber : String
  movementCode : Int
deriving DecidableEq, Repr

/-- The input table (`pandas.DataFrame`) abstracted as its list of column
names plus its rows.  `find_anomalous_repairs` inspects the columns only to
check that the two required fields are present, and `df.empty` holds iff
there are no rows. -/
structure DataFrame where
  columns : List String
  rows : List Row
deriving DecidableEq, Repr

/-- Boolean lexicographic comparison of strings by code point: Python's
`<=` on `str`.  Stated via the order on the underlying character lists so
that it evaluates by kernel reduction. -/
def strLeb (a b : String) : Bool := decide (a.data ≤ b.data)

/-- Python's `sorted` on a list of integers (ascending, stable). -/
def sortInt (l : List Int) : List Int := l.insertionSort (· ≤ ·)

/-- Python's `sorted` on a list of strings (ascending lexicographic,
stable). -/
def sortStr (l : List String) : List String :=
  l.insertionSort (fun a b => strLeb a b = true)

/-- The expected movement codes, `required_codes = {251, 161, 252}`.
The Python value is a `set`; only membership and (sorted) enumeration of
elements are ever used, so a duplicate-free list is a faithful model. -/
def required_codes : List Int := [251, 161, 252]

/-- The distinct repair numbers of the table, in ascending order: the keys
of `data.groupby('Repair Number')` in iteration order (pandas sorts group
keys ascending by default). -/
def repairNumbers (rows : List Row) : List String :=
  sortStr ((rows.map Row.repairNumber).dedup)

/-- The movement codes of one group: `group_df['Movement Code'].tolist()`
for the group of `repair_num`, in original row order. -/
def groupCodes (rows : List Row) (repair_num : String) : List Int :=
  (rows.filter (fun row => row.repairNumber == repair_num)).map Row.movementCode

/-- The `is_perfect` test of `find_anomalous_repairs`: total count is 3,
every required code is tallied exactly once, and no unexpected code occurs.
`code_counts.get(code, 0)` is `movement_codes.count code`, and iterating a
`Counter` visits each distinct element of the list once, i.e. the elements
of `movement_codes.dedup`. -/
def is_perfect (movement_codes : List Int) : Bool :=
  movement_codes.length == 3 &&
  required_codes.all (fun code => movement_codes.count code == 1) &&
  movement_codes.dedup.all (fun code => required_codes.contains code)

/-- The structured anomaly description (`anomaly_info` dictionary) emitted
for a non-perfect group.  `codeTally` is the `Movement Codes Found`
dictionary `dict(Counter(movement_codes))` viewed as its count function
(a `Counter` of a list stores no zero counts, so absence of a key is
count 0). -/
@[ext]
structure AnomalyRecord where
  repairNumber : String
  codeTally : Int → Nat
  missingCodes : List Int
  extraCodes : List Int
  unexpectedCodes : List Int
  totalCount : Nat

/-- Construction of the `anomaly_info` dictionary for one non-perfect group:
`missing_required`, `extra_required` and `unexpected_found` are Python
`sorted` comprehensions over `required_codes` resp. the distinct codes of
the group, and `Total Count` is `len(movement_codes)`. -/
def anomaly_info (repair_num : String) (movement_codes : List Int) : AnomalyRecord where
  repairNumber := repair_num
  codeTally := fun code => movement_codes.count code
  missingCodes := sortInt (required_codes.filter (fun code => movement_codes.count code == 0))
  extraCodes := sortInt (required_codes.filter (fun code => 1 < movement_codes.count code))
  unexpectedCodes := sortInt (movement_codes.dedup.filter (fun code => !(required_codes.contains code)))
  totalCount := movement_codes.length

/-- Body of the `for repair_num, group_df in grouped:` loop: `none` for a
perfect group (the loop `continue`s), `some` of the anomaly record
otherwise. -/
def processRepair (rows : List Row) (repair_num : String) : Option AnomalyRecord :=
  let movement_codes := groupCodes rows repair_num
  if is_perfect movement_codes then none
  else some (anomaly_info repair_num movement_codes)

/-- The anomaly detector `find_anomalous_repairs`: returns `[]` when the
table is empty or a required column is missing, otherwise one anomaly
record per non-perfect group, in group-key order. -/
def find_anomalous_repairs (data : DataFrame) : List AnomalyRecord :=
  if data.rows.isEmpty = true ∨ "Repair Number" ∉ data.columns ∨ "Movement Code" ∉ data.columns then
    []
  else
    (repairNumbers data.rows).filterMap (processRepair data.rows)

/-- The rule line `"="*60` of the report. -/
def ruleLine : String := String.mk (List.replicate 60 '=')

/-- The lookup `anomaly['Movement Codes Found'].get(code, '?')` rendered as
a string: a key is present in the `Counter`-derived dictionary iff its
count is nonzero. -/
def tallyGet (anomaly : AnomalyRecord) (code : Int) : String :=
  if anomaly.codeTally code = 0 then "?" else toString (anomaly.codeTally code)

/-- The single report line built for one anomaly inside
`write_results_to_file`: the `parts` list starts with the `Repair:` clause,
each of the three deviation clauses is appended only when its list is
non-empty, and the parts are joined with `", "`. -/
def anomalyLine (anomaly : AnomalyRecord) : String :=
  let parts := ["Repair: " ++ anomaly.repairNumber]
  let parts := if anomaly.missingCodes.isEmpty then parts else
    parts ++ ["Missing: " ++ String.intercalate ", " (anomaly.missingCodes.map toString)]
  let parts := if anomaly.extraCodes.isEmpty then parts else
    parts ++ ["Extra Count(s): " ++ String.intercalate ", "
      (anomaly.extraCodes.map (fun code => toString code ++ "(" ++ tallyGet anomaly code ++ ")"))]
  let parts := if anomaly.unexpectedCodes.isEmpty then parts else
    parts ++ ["Unexpected Code(s): " ++ String.intercalate ", "
      (anomaly.unexpectedCodes.map (fun code => toString code ++ "(" ++ tallyGet anomaly code ++ ")"))]
  String.intercalate ", " parts

/-- The in-place `detailed_anomalies.sort(key=lambda x: x.get('Repair Number', ''))`:
a stable ascending sort by repair number (every record of the model carries
the field, so the `''` default is never used). -/
def sortAnomalies (detailed_anomalies : List AnomalyRecord) : List AnomalyRecord :=
  detailed_anomalies.insertionSort (fun a b => strLeb a.repairNumber b.repairNumber = true)

/-- Observable outcome of `write_results_to_file`: the text written to the
output file, the returned status message, and the caller's list as the
in-place sort leaves it. -/
structure WriteResult where
  fileText : String
  statusMessage : String
  finalAnomalies : List AnomalyRecord

/-- The report formatter `write_results_to_file` (its pure content): sorts
the caller's list in place, then writes either the sentinel line (empty
case) or header, rule line, one line per anomaly, rule line, and the
`Total flagged` footer. -/
def write_results_to_file (detailed_anomalies : List AnomalyRecord)
    (output_file_path : String := "flagged_repairs_detailed.txt") : WriteResult :=
  let sorted := sortAnomalies detailed_anomalies
  if sorted.isEmpty then
    { fileText := "No anomalous repair numbers found based on the detailed criteria.\n"
      statusMessage := "No anomalies found. Results summary written to " ++ output_file_path
      finalAnomalies := sorted }
  else
    { fileText :=
        "Concise Anomaly Report:\n" ++ ruleLine ++ "\n" ++
        String.join (sorted.map (fun anomaly => anomalyLine anomaly ++ "\n")) ++
        ruleLine ++ "\n" ++ "\nTotal flagged: " ++ toString sorted.length ++ "\n"
      statusMessage := "Found " ++ toString sorted.length ++ " anomalies. Concise report written to " ++ output_file_path
      finalAnomalies := sorted }

/-- Record used as the irrelevant default of `List.getD` when indexing into
a detector result. -/
def defaultAnomaly : AnomalyRecord where
  repairNumber := ""
  codeTally := fun _ => 0
  missingCodes := []
  extraCodes := []
  unexpectedCodes := []
  totalCount := 0

/-- Modelled from the spec (§3, §4.1): the "perfect" tally
`{251: 1, 161: 1, 252: 1}` as a mapping — every required code counted
exactly once and every other code absent. -/
def ExactPerfectTally (movement_codes : List Int) : Prop :=
  ∀ code : Int, movement_codes.count code =
    if code = 251 ∨ code = 161 ∨ code = 252 then 1 else 0

/-- Modelled from the spec (§4.2): the clause list of one report line —
the always-present `Repair:` clause followed by the three optional
deviation clauses in their fixed order, each present only when its code
list is non-empty. -/
def specClauses (anomaly : AnomalyRecord) : List String :=
  ["Repair: " ++ anomaly.repairNumber] ++
  (if anomaly.missingCodes.isEmpty then [] else
    ["Missing: " ++ String.intercalate ", " (anomaly.missingCodes.map toString)]) ++
  (if anomaly.extraCodes.isEmpty then [] else
    ["Extra Count(s): " ++ String.intercalate ", "
      (anomaly.extraCodes.map (fun code => toString code ++ "(" ++ tallyGet anomaly code ++ ")"))]) ++
  (if anomaly.unexpectedCodes.isEmpty then [] else
    ["Unexpected Code(s): " ++ String.intercalate ", "
      (anomaly.unexpectedCodes.map (fun code => toString code ++ "(" ++ tallyGet anomaly code ++ ")"))])

/-- Concrete example table: repair `R1` is anomalous (code 252 missing),
repair `R2` is perfect. -/
def exampleTable : DataFrame where
  columns := ["Repair Number", "Movement Code"]
  rows := [⟨"R1", 251⟩, ⟨"R1", 161⟩, ⟨"R2", 251⟩, ⟨"R2", 161⟩, ⟨"R2", 252⟩]

/-- The same table with its rows reordered. -/
def exampleTableShuffled : DataFrame where
  columns := ["Repair Number", "Movement Code"]
  rows := [⟨"R2", 252⟩, ⟨"R1", 161⟩, ⟨"R2", 161⟩, ⟨"R1", 251⟩, ⟨"R2", 251⟩]

/-- Concrete table whose `Movement Code` column is missing. -/
def exampleNoCodeColumn : DataFrame where
  columns := ["Repair Number"]
  rows := [⟨"R9", 999⟩]

/-- Concrete anomaly record: repair `R2` saw only a single 251. -/
def exampleAnomalyA : AnomalyRecord := anomaly_info "R2" [251]

/-- Concrete anomaly record: repair `R1` saw the unexpected code 999. -/
def exampleAnomalyB : AnomalyRecord := anomaly_info "R1" [999, 251, 161, 252]

/-! Properties of the string comparison and the sorts. -/

theorem strLeb_iff (a b : String) : strLeb a b = true ↔ a ≤ b := by
  rw [String.le_iff_toList_le]
  simp [strLeb, String.toList]

instance strLeb_total : IsTotal String (fun a b => strLeb a b = true) := by
  constructor
  intro a b
  rcases le_total a b with h | h
  · exact Or.inl ((strLeb_iff a b).mpr h)
  · exact Or.inr ((strLeb_iff b a).mpr h)

instance strLeb_trans : IsTrans String (fun a b => strLeb a b = true) := by
  constructor
  intro a b c hab hbc
  exact (strLeb_iff a c).mpr (le_trans ((strLeb_iff a b).mp hab) ((strLeb_iff b c).mp hbc))

instance strLeb_antisymm : IsAntisymm String (fun a b => strLeb a b = true) := by
  constructor
  intro a b hab hba
  exact le_antisymm ((strLeb_iff a b).mp hab) ((strLeb_iff b a).mp hba)

instance recLeb_total :
    IsTotal AnomalyRecord (fun a b => strLeb a.repairNumber b.repairNumber = true) := by
  constructor
  intro a b
  exact IsTotal.total (r := fun a b : String => strLeb a b = true) _ _

instance recLeb_trans :
    IsTrans AnomalyRecord (fun a b => strLeb a.repairNumber b.repairNumber = true) := by
  constructor
  intro a b c hab hbc
  exact IsTrans.trans (r := fun a b : String => strLeb a b = true) _ _ _ hab hbc

theorem sortStr_sorted (l : List String) :
    List.Sorted (fun a b => strLeb a b = true) (sortStr l) :=
  List.sorted_insertionSort _ l

theorem sortStr_perm (l : List String) : (sortStr l).Perm l :=
  List.perm_insertionSort _ l

theorem sortStr_eq_of_perm {l₁ l₂ : List String} (h : l₁.Perm l₂) : sortStr l₁ = sortStr l₂ :=
  List.eq_of_perm_of_sorted ((sortStr_perm l₁).trans (h.trans (sortStr_perm l₂).symm))
    (sortStr_sorted l₁) (sortStr_sorted l₂)

theorem sortInt_sorted (l : List Int) : List.Sorted (· ≤ ·) (sortInt l) :=
  List.sorted_insertionSort _ l

theorem sortInt_perm (l : List Int) : (sortInt l).Perm l :=
  List.perm_insertionSort _ l

theorem sortInt_mem {l : List Int} {a : Int} : a ∈ sortInt l ↔ a ∈ l :=
  List.mem_insertionSort _

theorem sortInt_eq_of_perm {l₁ l₂ : List Int} (h : l₁.Perm l₂) : sortInt l₁ = sortInt l₂ :=
  List.eq_of_perm_of_sorted ((sortInt_perm l₁).trans (h.trans (sortInt_perm l₂).symm))
    (sortInt_sorted l₁) (sortInt_sorted l₂)

theorem sortInt_nodup {l : List Int} (h : l.Nodup) : (sortInt l).Nodup :=
  List.Perm.nodup (sortInt_perm l).symm h

theorem sortInt_sorted_lt {l : List Int} (h : l.Nodup) :
    List.Sorted (· < ·) (sortInt l) :=
  List.Sorted.lt_of_le (sortInt_sorted l) (sortInt_nodup h)

theorem sortAnomalies_perm (l : List AnomalyRecord) : (sortAnomalies l).Perm l :=
  List.perm_insertionSort _ l

theorem sortAnomalies_sorted (l : List AnomalyRecord) :
    List.Sorted (fun a b => strLeb a.repairNumber b.repairNumber = true) (sortAnomalies l) :=
  List.sorted_insertionSort _ l

theorem sortAnomalies_idem (l : List AnomalyRecord) :
    sortAnomalies (sortAnomalies l) = sortAnomalies l :=
  List.Sorted.insertionSort_eq (sortAnomalies_sorted l)

/-! Properties of the grouping. -/

theorem repairNumbers_nodup (rows : List Row) : (repairNumbers rows).Nodup :=
  List.Perm.nodup (sortStr_perm _).symm (List.nodup_dedup _)

theorem mem_repairNumbers {rows : List Row} {r : String} :
    r ∈ repairNumbers rows ↔ r ∈ rows.map Row.repairNumber := by
  unfold repairNumbers sortStr
  rw [List.mem_insertionSort, List.mem_dedup]

theorem processRepair_eq_some {rows : List Row} {k : String} {a : AnomalyRecord}
    (h : processRepair rows k = some a) :
    is_perfect (groupCodes rows k) = false ∧ a = anomaly_info k (groupCodes rows k) := by
  unfold processRepair at h
  by_cases hp : is_perfect (groupCodes rows k) = true
  · simp [hp] at h
  · rw [Bool.not_eq_true] at hp
    simp [hp] at h
    exact ⟨hp, h.symm⟩

theorem processRepair_repairNumber {rows : List Row} {k : String} {a : AnomalyRecord}
    (h : processRepair rows k = some a) : a.repairNumber = k := by
  rw [(processRepair_eq_some h).2]
  rfl

theorem processRepair_isSome (rows : List Row) (k : String) :
    (processRepair rows k).isSome = true ↔ is_perfect (groupCodes rows k) = false := by
  unfold processRepair
  by_cases hp : is_perfect (groupCodes rows k) = true
  · simp [hp]
  · rw [Bool.not_eq_true] at hp
    simp [hp]

/-- Counting records by key in a keyed `filterMap`: when the key list has no
duplicates and the processing function stamps each produced record with its
key, each key contributes at most one record. -/
theorem filterMap_count_key (F : String → Option AnomalyRecord)
    (hF : ∀ k a, F k = some a → a.repairNumber = k) :
    ∀ keys : List String, keys.Nodup → ∀ r : String,
      ((keys.filterMap F).filter (fun a => a.repairNumber == r)).length =
        if r ∈ keys ∧ (F r).isSome = true then 1 else 0 := by
  intro keys
  induction keys with
  | nil => intro _ r; simp
  | cons k ks ih =>
    intro hnd r
    rw [List.nodup_cons] at hnd
    obtain ⟨hk, hnd⟩ := hnd
    cases hFk : F k with
    | none =>
      rw [List.filterMap_cons_none hFk, ih hnd r]
      by_cases hrk : r = k
      · subst hrk
        simp [hk, hFk]
      · simp [hrk]
    | some a =>
      have ha := hF k a hFk
      rw [List.filterMap_cons_some hFk, List.filter_cons]
      by_cases hrk : r = k
      · subst hrk
        rw [if_pos (by simp [ha]), List.length_cons, ih hnd r]
        simp [hk, hFk]
      · rw [if_neg (by simp [ha, hrk, Ne.symm hrk]), ih hnd r]
        simp [hrk]

/-- Under the guard hypotheses the detector is the keyed `filterMap` over
the sorted distinct repair numbers. -/
theorem find_eq_filterMap {data : DataFrame}
    (h1 : "Repair Number" ∈ data.columns) (h2 : "Movement Code" ∈ data.columns)
    (h3 : data.rows.isEmpty = false) :
    find_anomalous_repairs data =
      (repairNumbers data.rows).filterMap (processRepair data.rows) := by
  unfold find_anomalous_repairs
  rw [if_neg]
  push_neg
  exact ⟨by simp [h3], h1, h2⟩

/-- The boolean perfection test of the source agrees with the spec's exact
tally `{251: 1, 161: 1, 252: 1}`. -/
theorem is_perfect_iff (movement_codes : List Int) :
    is_perfect movement_codes = true ↔ ExactPerfectTally movement_codes := by
  unfold is_perfect ExactPerfectTally
  simp only [Bool.and_eq_true, List.all_eq_true, beq_iff_eq, decide_eq_true_eq]
  constructor
  · rintro ⟨⟨_, hreq⟩, hded⟩ code
    by_cases hc : code = 251 ∨ code = 161 ∨ code = 252
    · rw [if_pos hc]
      rcases hc with h | h | h <;> subst h <;> exact hreq _ (by decide)
    · rw [if_neg hc]
      by_contra hne
      have hmem : code ∈ movement_codes :=
        List.count_pos_iff.mp (Nat.pos_of_ne_zero hne)
      have hcon : code ∈ required_codes := List.elem_iff.mp (hded code (List.mem_dedup.mpr hmem))
      exact hc (by simpa [required_codes] using hcon)
  · intro h
    have hperm : movement_codes.Perm required_codes := by
      rw [List.perm_iff_count]
      intro a
      rw [h a]
      by_cases h1 : a = 251
      · subst h1; decide
      · by_cases h2 : a = 161
        · subst h2; decide
        · by_cases h3 : a = 252
          · subst h3; decide
          · rw [if_neg (by tauto)]
            symm
            rw [List.count_eq_zero]
            simp [required_codes, h1, h2, h3]
    refine ⟨⟨by simpa using hperm.length_eq, ?_⟩, ?_⟩
    · intro x hx
      rw [h x]
      rw [if_pos]
      simpa [required_codes] using hx
    · intro x hx
      have hmem : x ∈ movement_codes := List.mem_dedup.mp hx
      have hpos : 0 < movement_codes.count x := List.count_pos_iff.mpr hmem
      rw [h x] at hpos
      rw [List.elem_iff]
      by_contra hxr
      rw [if_neg (by simpa [required_codes] using hxr)] at hpos
      exact Nat.lt_irrefl 0 hpos

/-! Properties of the fields of one anomaly record. -/

theorem required_codes_nodup : required_codes.Nodup := by decide

theorem anomaly_info_missing_sorted (repair_num : String) (movement_codes : List Int) :
    List.Sorted (· < ·) (anomaly_info repair_num movement_codes).missingCodes :=
  sortInt_sorted_lt (required_codes_nodup.filter _)

theorem anomaly_info_missing_mem (repair_num : String) (movement_codes : List Int) (c : Int) :
    c ∈ (anomaly_info repair_num movement_codes).missingCodes ↔
      c ∈ required_codes ∧ movement_codes.count c = 0 := by
  unfold anomaly_info
  rw [sortInt_mem, List.mem_filter]
  simp

theorem anomaly_info_extra_sorted (repair_num : String) (movement_codes : List Int) :
    List.Sorted (· < ·) (anomaly_info repair_num movement_codes).extraCodes :=
  sortInt_sorted_lt (required_codes_nodup.filter _)

theorem anomaly_info_extra_mem (repair_num : String) (movement_codes : List Int) (c : Int) :
    c ∈ (anomaly_info repair_num movement_codes).extraCodes ↔
      c ∈ required_codes ∧ 1 < movement_codes.count c := by
  unfold anomaly_info
  rw [sortInt_mem, List.mem_filter]
  simp

theorem anomaly_info_unexpected_sorted (repair_num : String) (movement_codes : List Int) :
    List.Sorted (· < ·) (anomaly_info repair_num movement_codes).unexpectedCodes :=
  sortInt_sorted_lt ((List.nodup_dedup movement_codes).filter _)

theorem anomaly_info_unexpected_mem (repair_num : String) (movement_codes : List Int) (c : Int) :
    c ∈ (anomaly_info repair_num movement_codes).unexpectedCodes ↔
      c ∈ movement_codes ∧ c ∉ required_codes := by
  unfold anomaly_info
  rw [sortInt_mem, List.mem_filter, List.mem_dedup]
  simp

theorem anomaly_info_tally (repair_num : String) (movement_codes : List Int) (c : Int) :
    (anomaly_info repair_num movement_codes).codeTally c = movement_codes.count c := rfl

theorem anomaly_info_total (repair_num : String) (movement_codes : List Int) :
    (anomaly_info repair_num movement_codes).totalCount =
      (movement_codes.dedup.map (fun c => movement_codes.count c)).sum :=
  (List.sum_map_count_dedup_eq_length movement_codes).symm

theorem groupCodes_ne_nil {rows : List Row} {r : String}
    (h : r ∈ rows.map Row.repairNumber) : groupCodes rows r ≠ [] := by
  obtain ⟨row, hrow, hrn⟩ := List.mem_map.mp h
  have hf : row ∈ rows.filter (fun row => row.repairNumber == r) :=
    List.mem_filter.mpr ⟨hrow, by simp [hrn]⟩
  exact List.ne_nil_of_mem (List.mem_map_of_mem Row.movementCode hf)

/-- Every record produced by the detector is `anomaly_info` of its own group,
and its group is non-empty. -/
theorem mem_find_anomalous_repairs {data : DataFrame} {a : AnomalyRecord}
    (h : a ∈ find_anomalous_repairs data) :
    a = anomaly_info a.repairNumber (groupCodes data.rows a.repairNumber) ∧
      is_perfect (groupCodes data.rows a.repairNumber) = false ∧
      groupCodes data.rows a.repairNumber ≠ [] := by
  unfold find_anomalous_repairs at h
  by_cases hg : data.rows.isEmpty = true ∨ "Repair Number" ∉ data.columns ∨
      "Movement Code" ∉ data.columns
  · rw [if_pos hg] at h
    exact absurd h (List.not_mem_nil a)
  · rw [if_neg hg] at h
    obtain ⟨k, hk, hpk⟩ := List.mem_filterMap.mp h
    obtain ⟨hperf, ha⟩ := processRepair_eq_some hpk
    have hrn : a.repairNumber = k := processRepair_repairNumber hpk
    rw [hrn]
    exact ⟨ha, hperf, groupCodes_ne_nil (mem_repairNumbers.mp hk)⟩

/-! Properties of the formatter. -/

theorem write_finalAnomalies (l : List AnomalyRecord) (p : String) :
    (write_results_to_file l p).finalAnomalies = sortAnomalies l := by
  unfold write_results_to_file
  by_cases h : (sortAnomalies l).isEmpty = true <;> simp [h]

theorem write_of_sortAnomalies (l : List AnomalyRecord) (p : String) :
    write_results_to_file (sortAnomalies l) p = write_results_to_file l p := by
  unfold write_results_to_file
  rw [sortAnomalies_idem]

theorem anomalyLine_eq_specClauses (anomaly : AnomalyRecord) :
    anomalyLine anomaly = String.intercalate ", " (specClauses anomaly) := by
  unfold anomalyLine specClauses
  by_cases hm : anomaly.missingCodes.isEmpty = true <;>
  by_cases he : anomaly.extraCodes.isEmpty = true <;>
  by_cases hu : anomaly.unexpectedCodes.isEmpty = true <;>
  simp [hm, he, hu]

/-! Permutation invariance of the detector. -/

theorem is_perfect_perm {l₁ l₂ : List Int} (h : l₁.Perm l₂) :
    is_perfect l₁ = is_perfect l₂ := by
  rw [Bool.eq_iff_iff, is_perfect_iff, is_perfect_iff]
  unfold ExactPerfectTally
  constructor <;> intro hp code
  · rw [← h.count_eq code]
    exact hp code
  · rw [h.count_eq code]
    exact hp code

theorem anomaly_info_perm (repair_num : String) {l₁ l₂ : List Int} (h : l₁.Perm l₂) :
    anomaly_info repair_num l₁ = anomaly_info repair_num l₂ := by
  unfold anomaly_info
  have ht : (fun code => l₁.count code) = (fun code => l₂.count code) :=
    funext fun c => h.count_eq c
  have hm : required_codes.filter (fun code => l₁.count code == 0) =
      required_codes.filter (fun code => l₂.count code == 0) :=
    List.filter_congr (fun x _ => by rw [h.count_eq])
  have he : required_codes.filter (fun code => decide (1 < l₁.count code)) =
      required_codes.filter (fun code => decide (1 < l₂.count code)) :=
    List.filter_congr (fun x _ => by rw [h.count_eq])
  have hu : sortInt (l₁.dedup.filter (fun code => !(required_codes.contains code))) =
      sortInt (l₂.dedup.filter (fun code => !(required_codes.contains code))) :=
    sortInt_eq_of_perm (h.dedup.filter _)
  rw [AnomalyRecord.mk.injEq]
  exact ⟨rfl, ht, by rw [hm], by rw [he], hu, h.length_eq⟩

theorem processRepair_perm {rows₁ rows₂ : List Row} (h : rows₁.Perm rows₂) :
    processRepair rows₁ = processRepair rows₂ := by
  funext k
  have hc : (groupCodes rows₁ k).Perm (groupCodes rows₂ k) := (h.filter _).map _
  show (if is_perfect (groupCodes rows₁ k) = true then none
      else some (anomaly_info k (groupCodes rows₁ k))) =
    (if is_perfect (groupCodes rows₂ k) = true then none
      else some (anomaly_info k (groupCodes rows₂ k)))
  rw [is_perfect_perm hc, anomaly_info_perm k hc]

theorem perm_isEmpty_eq {α : Type} {l₁ l₂ : List α} (h : l₁.Perm l₂) :
    l₁.isEmpty = l₂.isEmpty := by
  cases l₁ <;> cases l₂ <;> simp_all

/-! The claims. -/

/-- C1: for every input table with the required fields,
`find_anomalous_repairs` emits exactly one anomaly record per distinct
repair number whose group is not perfect and none for a perfect group, and
the perfection test holds iff the group's code tally is exactly
`{251: 1, 161: 1, 252: 1}`. -/
theorem detect_one_record_per_anomalous_repair (data : DataFrame) (r : String)
    (movement_codes : List Int)
    (h1 : "Repair Number" ∈ data.columns) (h2 : "Movement Code" ∈ data.columns) :
    ((find_anomalous_repairs data).filter (fun a => a.repairNumber == r)).length =
      (if r ∈ data.rows.map Row.repairNumber ∧ is_perfect (groupCodes data.rows r) = false
       then 1 else 0) ∧
    (is_perfect movement_codes = true ↔ ExactPerfectTally movement_codes) := by
  refine ⟨?_, is_perfect_iff movement_codes⟩
  by_cases hemp : data.rows.isEmpty = true
  · rw [List.isEmpty_iff] at hemp
    unfold find_anomalous_repairs
    rw [if_pos (Or.inl (by rw [hemp]; rfl))]
    rw [if_neg]
    · rfl
    · rw [hemp]
      simp
  · rw [find_eq_filterMap h1 h2 (by simpa using hemp)]
    rw [filterMap_count_key _ (fun k a h => processRepair_repairNumber h) _
      (repairNumbers_nodup _) r]
    apply if_congr _ rfl rfl
    exact and_congr mem_repairNumbers (processRepair_isSome _ _)

/-- Witness for `detect_one_record_per_anomalous_repair` at the example
table, the anomalous repair `R1` and the perfect code list. -/
theorem detect_one_record_per_anomalous_repair_witness :
    ("Repair Number" ∈ exampleTable.columns ∧ "Movement Code" ∈ exampleTable.columns) ∧
    (((find_anomalous_repairs exampleTable).filter (fun a => a.repairNumber == "R1")).length =
      (if "R1" ∈ exampleTable.rows.map Row.repairNumber ∧
          is_perfect (groupCodes exampleTable.rows "R1") = false then 1 else 0) ∧
      (is_perfect [251, 161, 252] = true ↔ ExactPerfectTally [251, 161, 252])) :=
  ⟨⟨by decide, by decide⟩,
    detect_one_record_per_anomalous_repair exampleTable "R1" [251, 161, 252]
      (by decide) (by decide)⟩

/-- C6: on an empty table, or one lacking either required column, the
detector returns the empty result instead of failing. -/
theorem detect_invalid_input_empty (data : DataFrame)
    (h : data.rows.isEmpty = true ∨ "Repair Number" ∉ data.columns ∨
      "Movement Code" ∉ data.columns) :
    find_anomalous_repairs data = [] := by
  unfold find_anomalous_repairs
  rw [if_pos h]

/-- Witness for `detect_invalid_input_empty` at a table missing the
`Movement Code` column. -/
theorem detect_invalid_input_empty_witness :
    (exampleNoCodeColumn.rows.isEmpty = true ∨
      "Repair Number" ∉ exampleNoCodeColumn.columns ∨
      "Movement Code" ∉ exampleNoCodeColumn.columns) ∧
    find_anomalous_repairs exampleNoCodeColumn = [] :=
  ⟨by decide, detect_invalid_input_empty exampleNoCodeColumn (by decide)⟩

/-- C7: the detector is invariant under permutation of the input rows — the
output lists (every record field included) are equal. -/
theorem detect_perm_invariant (d₁ d₂ : DataFrame)
    (hcols : d₁.columns = d₂.columns) (hrows : d₁.rows.Perm d₂.rows) :
    find_anomalous_repairs d₁ = find_anomalous_repairs d₂ := by
  unfold find_anomalous_repairs
  rw [hcols, perm_isEmpty_eq hrows]
  by_cases hg : d₂.rows.isEmpty = true ∨ "Repair Number" ∉ d₂.columns ∨
      "Movement Code" ∉ d₂.columns
  · rw [if_pos hg, if_pos hg]
  · rw [if_neg hg, if_neg hg]
    have hkeys : repairNumbers d₁.rows = repairNumbers d₂.rows :=
      sortStr_eq_of_perm ((hrows.map _).dedup)
    rw [hkeys, processRepair_perm hrows]

/-- Witness for `detect_perm_invariant` at the example table and its
shuffled variant. -/
theorem detect_perm_invariant_witness :
    (exampleTable.columns = exampleTableShuffled.columns ∧
      exampleTable.rows.Perm exampleTableShuffled.rows) ∧
    find_anomalous_repairs exampleTable = find_anomalous_repairs exampleTableShuffled :=
  ⟨⟨by decide, by decide⟩, detect_perm_invariant _ _ (by decide) (by decide)⟩

/-- C8: both core operations are deterministic: the detector is a pure
function of its input, and re-running the formatter on the same list —
whose only lasting effect was sorting that list in place — reproduces
byte-identical report text and status message. -/
theorem core_operations_deterministic (data : DataFrame) (l : List AnomalyRecord)
    (p : String) :
    find_anomalous_repairs data = find_anomalous_repairs data ∧
    (write_results_to_file l p).fileText = (write_results_to_file l p).fileText ∧
    (write_results_to_file ((write_results_to_file l p).finalAnomalies) p).fileText =
      (write_results_to_file l p).fileText ∧
    (write_results_to_file ((write_results_to_file l p).finalAnomalies) p).statusMessage =
      (write_results_to_file l p).statusMessage := by
  rw [write_finalAnomalies, write_of_sortAnomalies]
  exact ⟨rfl, rfl, rfl, rfl⟩

/-- C9: the formatter is not free of side effects on its argument: after
every call the caller's list is a permutation of the original sorted
ascending by repair number, the records themselves unchanged. -/
theorem format_sorts_argument_in_place (l : List AnomalyRecord) (p : String) :
    ((write_results_to_file l p).finalAnomalies).Perm l ∧
    List.Sorted (fun a b => a.repairNumber ≤ b.repairNumber)
      ((write_results_to_file l p).finalAnomalies) := by
  rw [write_finalAnomalies]
  exact ⟨sortAnomalies_perm l,
    (sortAnomalies_sorted l).imp (fun h => (strLeb_iff _ _).mp h)⟩

/-- C4: the repair numbers of the emitted per-anomaly lines are in ascending
lexicographic order, are exactly the input's repair numbers, and do not
depend on the order of the input sequence. -/
theorem format_ids_ascending (l l' : List AnomalyRecord) (p p' : String)
    (hperm : l.Perm l') :
    List.Sorted (· ≤ ·)
      (((write_results_to_file l p).finalAnomalies).map AnomalyRecord.repairNumber) ∧
    ((((write_results_to_file l p).finalAnomalies).map AnomalyRecord.repairNumber).Perm
      (l.map AnomalyRecord.repairNumber)) ∧
    ((write_results_to_file l p).finalAnomalies).map AnomalyRecord.repairNumber =
      ((write_results_to_file l' p').finalAnomalies).map AnomalyRecord.repairNumber := by
  rw [write_finalAnomalies, write_finalAnomalies]
  have hs : ∀ m : List AnomalyRecord, List.Sorted (· ≤ ·)
      ((sortAnomalies m).map AnomalyRecord.repairNumber) := fun m =>
    List.Pairwise.map _ (fun a b h => (strLeb_iff _ _).mp h) (sortAnomalies_sorted m)
  refine ⟨hs l, (sortAnomalies_perm l).map _, ?_⟩
  have hp : ((sortAnomalies l).map AnomalyRecord.repairNumber).Perm
      ((sortAnomalies l').map AnomalyRecord.repairNumber) :=
    ((sortAnomalies_perm l).map _).trans
      ((hperm.map _).trans ((sortAnomalies_perm l').map _).symm)
  exact List.eq_of_perm_of_sorted hp (hs l) (hs l')

/-- Witness for `format_ids_ascending` at a two-record list and its
reversal. -/
theorem format_ids_ascending_witness :
    ([exampleAnomalyA, exampleAnomalyB].Perm [exampleAnomalyB, exampleAnomalyA]) ∧
    (List.Sorted (· ≤ ·)
      (((write_results_to_file [exampleAnomalyA, exampleAnomalyB] "out.txt").finalAnomalies).map
        AnomalyRecord.repairNumber) ∧
    ((((write_results_to_file [exampleAnomalyA, exampleAnomalyB] "out.txt").finalAnomalies).map
        AnomalyRecord.repairNumber).Perm
      ([exampleAnomalyA, exampleAnomalyB].map AnomalyRecord.repairNumber)) ∧
    ((write_results_to_file [exampleAnomalyA, exampleAnomalyB] "out.txt").finalAnomalies).map
        AnomalyRecord.repairNumber =
      ((write_results_to_file [exampleAnomalyB, exampleAnomalyA] "other.txt").finalAnomalies).map
        AnomalyRecord.repairNumber) :=
  ⟨List.Perm.swap exampleAnomalyB exampleAnomalyA [],
    format_ids_ascending [exampleAnomalyA, exampleAnomalyB]
      [exampleAnomalyB, exampleAnomalyA] "out.txt" "other.txt"
      (List.Perm.swap exampleAnomalyB exampleAnomalyA [])⟩

/-- C3 counterexample: on the empty anomaly sequence the emitted text is the
single sentinel line and nothing else — it has exactly one line and contains
no character `0`, so in particular no footer line giving flagged count 0. -/
theorem format_empty_no_footer_counterexample :
    (write_results_to_file [] "flagged_repairs_detailed.txt").fileText =
      "No anomalous repair numbers found based on the detailed criteria.\n" ∧
    ((write_results_to_file [] "flagged_repairs_detailed.txt").fileText.data.count '\n' = 1) ∧
    ((write_results_to_file [] "flagged_repairs_detailed.txt").fileText.data.count '0' = 0) :=
  ⟨rfl, by decide, by decide⟩

/-- C3 amended: on the empty anomaly sequence the formatter emits only the
fixed sentinel line (no footer), and the status message states that no
anomalies were found. -/
theorem format_empty_sentinel_only (p : String) :
    (write_results_to_file [] p).fileText =
      "No anomalous repair numbers found based on the detailed criteria.\n" ∧
    (write_results_to_file [] p).statusMessage =
      "No anomalies found. Results summary written to " ++ p :=
  ⟨rfl, rfl⟩

theorem write_fileText_nonempty {l : List AnomalyRecord} (p : String)
    (hne : (sortAnomalies l).isEmpty = false) :
    (write_results_to_file l p).fileText =
      "Concise Anomaly Report:\n" ++ ruleLine ++ "\n" ++
      String.join ((sortAnomalies l).map (fun anomaly => anomalyLine anomaly ++ "\n")) ++
      ruleLine ++ "\n" ++ "\nTotal flagged: " ++ toString (sortAnomalies l).length ++ "\n" := by
  unfold write_results_to_file
  simp [hne]

/-- C5: for every non-empty anomaly sequence the report text is the header,
a rule line, exactly one line per anomaly — the mandatory `Repair:` clause
followed by the optional `Missing:`, `Extra Count(s):` and
`Unexpected Code(s):` clauses in that fixed order, joined by `", "` — the
rule line again and the `Total flagged:` footer; the rule line is exactly
sixty `=` characters. -/
theorem format_report_layout (l : List AnomalyRecord) (p : String) (h : l ≠ []) :
    (write_results_to_file l p).fileText =
      "Concise Anomaly Report:\n" ++ ruleLine ++ "\n" ++
      String.join (((write_results_to_file l p).finalAnomalies).map
        (fun anomaly => String.intercalate ", " (specClauses anomaly) ++ "\n")) ++
      ruleLine ++ "\n" ++ "\nTotal flagged: " ++ toString l.length ++ "\n" ∧
    ((write_results_to_file l p).finalAnomalies).length = l.length ∧
    ruleLine.length = 60 ∧
    ruleLine.data.all (fun ch => ch == '=') = true := by
  have hlen : (sortAnomalies l).length = l.length := List.length_insertionSort _ l
  have hne : (sortAnomalies l).isEmpty = false := by
    rw [List.isEmpty_eq_false]
    intro hnil
    rw [hnil] at hlen
    exact h (List.length_eq_zero.mp hlen.symm)
  rw [write_finalAnomalies]
  refine ⟨?_, hlen, by decide, by decide⟩
  rw [write_fileText_nonempty p hne, hlen]
  simp only [anomalyLine_eq_specClauses]

/-- Witness for `format_report_layout` at a one-record list. -/
theorem format_report_layout_witness :
    ([exampleAnomalyA] ≠ ([] : List AnomalyRecord)) ∧
    ((write_results_to_file [exampleAnomalyA] "out.txt").fileText =
      "Concise Anomaly Report:\n" ++ ruleLine ++ "\n" ++
      String.join (((write_results_to_file [exampleAnomalyA] "out.txt").finalAnomalies).map
        (fun anomaly => String.intercalate ", " (specClauses anomaly) ++ "\n")) ++
      ruleLine ++ "\n" ++ "\nTotal flagged: " ++ toString [exampleAnomalyA].length ++ "\n" ∧
    ((write_results_to_file [exampleAnomalyA] "out.txt").finalAnomalies).length =
      [exampleAnomalyA].length ∧
    ruleLine.length = 60 ∧
    ruleLine.data.all (fun ch => ch == '=') = true) :=
  ⟨List.cons_ne_nil _ _,
    format_report_layout [exampleAnomalyA] "out.txt" (List.cons_ne_nil _ _)⟩

theorem record_fields_of_mem {data : DataFrame} {a : AnomalyRecord}
    (hmem : a ∈ find_anomalous_repairs data) :
    (List.Sorted (· < ·) a.missingCodes ∧
      (∀ c : Int, c ∈ a.missingCodes ↔
        c ∈ required_codes ∧ (groupCodes data.rows a.repairNumber).count c = 0)) ∧
    (List.Sorted (· < ·) a.extraCodes ∧
      (∀ c : Int, c ∈ a.extraCodes ↔
        c ∈ required_codes ∧ 1 < (groupCodes data.rows a.repairNumber).count c)) ∧
    (List.Sorted (· < ·) a.unexpectedCodes ∧
      (∀ c : Int, c ∈ a.unexpectedCodes ↔
        c ∈ groupCodes data.rows a.repairNumber ∧ c ∉ required_codes)) ∧
    (∀ c : Int, a.codeTally c = (groupCodes data.rows a.repairNumber).count c) ∧
    a.totalCount = ((groupCodes data.rows a.repairNumber).dedup.map
      (fun c => (groupCodes data.rows a.repairNumber).count c)).sum := by
  obtain ⟨ha, _, _⟩ := mem_find_anomalous_repairs hmem
  generalize hcodes : groupCodes data.rows a.repairNumber = codes at ha ⊢
  rw [ha]
  exact ⟨⟨anomaly_info_missing_sorted _ _, anomaly_info_missing_mem _ _⟩,
    ⟨anomaly_info_extra_sorted _ _, anomaly_info_extra_mem _ _⟩,
    ⟨anomaly_info_unexpected_sorted _ _, anomaly_info_unexpected_mem _ _⟩,
    anomaly_info_tally _ _, anomaly_info_total _ _⟩

/-- C2: for every record emitted by the detector, `missingCodes` is the
ascending list of required codes with tally 0, `extraCodes` the ascending
list of required codes tallied more than once, `unexpectedCodes` the
ascending list of codes of the group outside the required set, `codeTally`
the full raw per-code counts of the group, and `totalCount` the sum of all
the group's tallies. -/
theorem detect_record_fields (data : DataFrame) (i : Nat)
    (hi : i < (find_anomalous_repairs data).length) :
    let a := (find_anomalous_repairs data).getD i defaultAnomaly
    let codes := groupCodes data.rows a.repairNumber
    (List.Sorted (· < ·) a.missingCodes ∧
      (∀ c : Int, c ∈ a.missingCodes ↔ c ∈ required_codes ∧ codes.count c = 0)) ∧
    (List.Sorted (· < ·) a.extraCodes ∧
      (∀ c : Int, c ∈ a.extraCodes ↔ c ∈ required_codes ∧ 1 < codes.count c)) ∧
    (List.Sorted (· < ·) a.unexpectedCodes ∧
      (∀ c : Int, c ∈ a.unexpectedCodes ↔ c ∈ codes ∧ c ∉ required_codes)) ∧
    (∀ c : Int, a.codeTally c = codes.count c) ∧
    a.totalCount = (codes.dedup.map (fun c => codes.count c)).sum := by
  have hmem : (find_anomalous_repairs data).getD i defaultAnomaly ∈
      find_anomalous_repairs data := by
    rw [List.getD_eq_getElem _ _ hi]
    exact List.getElem_mem hi
  exact record_fields_of_mem hmem

/-- Witness for `detect_record_fields` at the example table's single
anomaly record. -/
theorem detect_record_fields_witness :
    0 < (find_anomalous_repairs exampleTable).length ∧
    (let a := (find_anomalous_repairs exampleTable).getD 0 defaultAnomaly
    let codes := groupCodes exampleTable.rows a.repairNumber
    (List.Sorted (· < ·) a.missingCodes ∧
      (∀ c : Int, c ∈ a.missingCodes ↔ c ∈ required_codes ∧ codes.count c = 0)) ∧
    (List.Sorted (· < ·) a.extraCodes ∧
      (∀ c : Int, c ∈ a.extraCodes ↔ c ∈ required_codes ∧ 1 < codes.count c)) ∧
    (List.Sorted (· < ·) a.unexpectedCodes ∧
      (∀ c : Int, c ∈ a.unexpectedCodes ↔ c ∈ codes ∧ c ∉ required_codes)) ∧
    (∀ c : Int, a.codeTally c = codes.count c) ∧
    a.totalCount = (codes.dedup.map (fun c => codes.count c)).sum) :=
  ⟨by decide, detect_record_fields exampleTable 0 (by decide)⟩

theorem record_invariants_of_mem {data : DataFrame} {a : AnomalyRecord}
    (hmem : a ∈ find_anomalous_repairs data) :
    (∀ c ∈ a.missingCodes, c ∈ required_codes) ∧
    (∀ c ∈ a.extraCodes, c ∈ required_codes) ∧
    a.missingCodes.Disjoint a.extraCodes ∧
    (∀ c ∈ a.unexpectedCodes, c ∉ required_codes) ∧
    (∀ c ∈ a.missingCodes, a.codeTally c = 0) ∧
    (∀ c ∈ a.extraCodes, 1 < a.codeTally c) ∧
    (∀ c ∈ a.unexpectedCodes, 1 ≤ a.codeTally c) ∧
    1 ≤ a.totalCount := by
  obtain ⟨ha, _, hne⟩ := mem_find_anomalous_repairs hmem
  generalize hcodes : groupCodes data.rows a.repairNumber = codes at ha hne
  rw [ha]
  refine ⟨?_, ?_, ?_, ?_, ?_, ?_, ?_, ?_⟩
  · intro c hc
    exact ((anomaly_info_missing_mem _ _ c).mp hc).1
  · intro c hc
    exact ((anomaly_info_extra_mem _ _ c).mp hc).1
  · intro c hcm hce
    have h0 := ((anomaly_info_missing_mem _ _ c).mp hcm).2
    have h1 := ((anomaly_info_extra_mem _ _ c).mp hce).2
    rw [h0] at h1
    exact absurd h1 (by decide)
  · intro c hc
    exact ((anomaly_info_unexpected_mem _ _ c).mp hc).2
  · intro c hc
    rw [anomaly_info_tally]
    exact ((anomaly_info_missing_mem _ _ c).mp hc).2
  · intro c hc
    rw [anomaly_info_tally]
    exact ((anomaly_info_extra_mem _ _ c).mp hc).2
  · intro c hc
    rw [anomaly_info_tally]
    exact List.count_pos_iff.mpr ((anomaly_info_unexpected_mem _ _ c).mp hc).1
  · exact List.length_pos.mpr hne

/-- C10: every record emitted by the detector satisfies the structural
invariants: `missingCodes` and `extraCodes` are disjoint subsets of the
required set, `unexpectedCodes` is disjoint from the required set, every
listed code carries the tally its classification demands (0, above 1,
at least 1 respectively), and the group holds at least one row. -/
theorem detect_record_invariants (data : DataFrame) (i : Nat)
    (hi : i < (find_anomalous_repairs data).length) :
    let a := (find_anomalous_repairs data).getD i defaultAnomaly
    (∀ c ∈ a.missingCodes, c ∈ required_codes) ∧
    (∀ c ∈ a.extraCodes, c ∈ required_codes) ∧
    a.missingCodes.Disjoint a.extraCodes ∧
    (∀ c ∈ a.unexpectedCodes, c ∉ required_codes) ∧
    (∀ c ∈ a.missingCodes, a.codeTally c = 0) ∧
    (∀ c ∈ a.extraCodes, 1 < a.codeTally c) ∧
    (∀ c ∈ a.unexpectedCodes, 1 ≤ a.codeTally c) ∧
    1 ≤ a.totalCount := by
  have hmem : (find_anomalous_repairs data).getD i defaultAnomaly ∈
      find_anomalous_repairs data := by
    rw [List.getD_eq_getElem _ _ hi]
    exact List.getElem_mem hi
  exact record_invariants_of_mem hmem

/-- Witness for `detect_record_invariants` at the example table's single
anomaly record. -/
theorem detect_record_invariants_witness :
    0 < (find_anomalous_repairs exampleTable).length ∧
    (let a := (find_anomalous_repairs exampleTable).getD 0 defaultAnomaly
    (∀ c ∈ a.missingCodes, c ∈ required_codes) ∧
    (∀ c ∈ a.extraCodes, c ∈ required_codes) ∧
    a.missingCodes.Disjoint a.extraCodes ∧
    (∀ c ∈ a.unexpectedCodes, c ∉ required_codes) ∧
    (∀ c ∈ a.missingCodes, a.codeTally c = 0) ∧
    (∀ c ∈ a.extraCodes, 1 < a.codeTally c) ∧
    (∀ c ∈ a.unexpectedCodes, 1 ≤ a.codeTally c) ∧
    1 ≤ a.totalCount) :=
  ⟨by decide, detect_record_invariants exampleTable 0 (by decide)⟩

end SAP
